import Mathlib

/-!
Verification of `wyoming-whisper-api-client` against its specification.

The embedding below follows `src/wyoming_whisper_api_client/__main__.py`
(argument parsing, capability descriptor, lock construction, server start)
and the specification of the per-connection session handler
(`WhisperAPIEventHandler`, whose module is not part of the provided source
tree and is therefore modelled from the spec where needed).
-/

namespace WyomingWhisper

/-! ## Configuration surface (`main`, lines 20-75)

`argparse` options are embedded as a record of the values supplied on the
command line (`SuppliedArgs`) and the parsed result (`Args`).  `argparse`
exits with an error when a `required=True` option is missing; otherwise it
stores either the supplied string or the declared default.  The
`--temperature` option declares `default=0.0` (a Python float) and no
`type=` converter, so a supplied value stays a raw string; `PyTemp`
captures the two possible runtime types of `args.temperature`.
-/

/-- Runtime value of `args.temperature`: a Python float (the declared
default `0.0`) or the raw command-line string (no `type=` converter is
declared for `--temperature`). -/
inductive PyTemp where
  | float (q : ℚ)
  | str (s : String)
deriving DecidableEq, Repr

/-- Options supplied on the command line (a missing option is `none`;
`--debug` is a store-true flag). -/
structure SuppliedArgs where
  api : Option String
  uri : Option String
  openai_api_key : Option String
  openai_model : Option String
  language : Option String
  prompt : Option String
  temperature : Option String
  debug : Bool
  log_format : Option String
deriving DecidableEq, Repr

/-- The parsed `args` namespace produced by `parser.parse_args()`. -/
structure Args where
  api : String
  uri : String
  openai_api_key : Option String
  openai_model : String
  language : Option String
  prompt : Option String
  temperature : PyTemp
  debug : Bool
  log_format : String
deriving DecidableEq, Repr

/-- `argparse` aborts the process when a `required=True` option is absent. -/
inductive ParseError where
  | missingRequired (name : String)
deriving DecidableEq, Repr

/-- Embedding of `parser.parse_args()` as set up in `main` (lines 20-70).
`env` is the process environment at startup: the default of
`--openai-api-key` is `os.environ.get("OPENAI_API_KEY")`, evaluated when
the parser is built.  `defaultModel` stands for `OPENAI_DEFAULT_MODEL` and
`defaultLogFormat` for `logging.BASIC_FORMAT`, both imported constants
whose defining modules are outside the provided source tree. -/
def parse_args (defaultModel : String) (defaultLogFormat : String)
    (env : String → Option String) (supplied : SuppliedArgs) :
    Except ParseError Args :=
  match supplied.api with
  | none => .error (.missingRequired "--api")
  | some apiVal =>
    match supplied.uri with
    | none => .error (.missingRequired "--uri")
    | some uriVal =>
      .ok {
        api := apiVal
        uri := uriVal
        openai_api_key :=
          match supplied.openai_api_key with
          | some k => some k
          | none => env "OPENAI_API_KEY"
        openai_model := supplied.openai_model.getD defaultModel
        language := supplied.language
        prompt := supplied.prompt
        temperature :=
          match supplied.temperature with
          | none => .float 0
          | some s => .str s
        debug := supplied.debug
        log_format := supplied.log_format.getD defaultLogFormat
      }

/-! ## Capability descriptor (`wyoming_info`, lines 77-103)

The `wyoming.info` dataclasses are embedded with the fields `main` uses.
`WHISPER_LANGUAGES` and `__version__` are imported from modules outside
the provided source tree, so the descriptor is parameterised by them. -/

structure Attribution where
  name : String
  url : String
deriving DecidableEq, Repr

structure AsrModel where
  name : String
  description : String
  attribution : Attribution
  installed : Bool
  languages : List String
  version : String
deriving DecidableEq, Repr

structure AsrProgram where
  name : String
  description : String
  attribution : Attribution
  installed : Bool
  version : String
  models : List AsrModel
deriving DecidableEq, Repr

structure Info where
  asr : List AsrProgram
deriving DecidableEq, Repr

/-- The `wyoming_info` value built once in `main` (lines 77-103). -/
def wyoming_info (version : String) (whisperLanguages : List String) : Info :=
  { asr := [
      { name := "whisper-cpp"
        description := "Faster Whisper transcription via its API"
        attribution := { name := "Michael Hansen"
                         url := "https://github.com/synesthesiam" }
        installed := true
        version := version
        models := [
          { name := "whisper.cpp"
            description := "whisper.cpp"
            attribution := { name := "rhasspy wyoming faster whisper"
                             url := "https://github.com/rhasspy/wyoming-faster-whisper" }
            installed := true
            languages := whisperLanguages
            version := "1.0" } ] } ] }

/-! ## Process startup (`main`, lines 70-117, and `run`)

`main` parses arguments, configures logging, builds `wyoming_info`, builds
the server from `args.uri`, constructs a single `asyncio.Lock()`
(`model_lock`, line 109), and then runs the server with
`functools.partial(WhisperAPIEventHandler, wyoming_info, args, model_lock)`
so every accepted connection instantiates a handler from the same three
prebuilt arguments.  Lock objects are identified by allocation order; the
one `asyncio.Lock()` call in `main` yields id `0`. -/

/-- The successive actions `main` performs, in source order
(lines 70-117).  There is no credential-validation action anywhere in
`main`: nothing between `parse_args` and `server.run` inspects
`args.openai_api_key`. -/
inductive MainAction where
  | parseArgsAct
  | configureLogging
  | buildInfo
  | buildServer
  | createLock
  | runServer
deriving DecidableEq, Repr

/-- `main`'s action sequence, transcribed from lines 70-117 of
`__main__.py`. -/
def mainActions : List MainAction :=
  [.parseArgsAct, .configureLogging, .buildInfo, .buildServer, .createLock, .runServer]

/-- The process state reached when `main` arrives at `server.run`
(line 110): the parsed arguments, the capability descriptor, and the id of
the single `model_lock` allocated at line 109. -/
structure StartedProcess where
  args : Args
  info : Info
  lockId : ℕ
deriving DecidableEq, Repr

/-- Embedding of `main` up to the call of `server.run`: parse the
arguments (aborting on a missing required option, as `argparse` does) and
otherwise proceed straight to running the server — no credential or
temperature validation happens in between. -/
def mainStartup (defaultModel : String) (defaultLogFormat : String)
    (env : String → Option String) (supplied : SuppliedArgs)
    (version : String) (whisperLanguages : List String) :
    Except ParseError StartedProcess :=
  match parse_args defaultModel defaultLogFormat env supplied with
  | .error e => .error e
  | .ok args =>
      .ok { args := args
            info := wyoming_info version whisperLanguages
            lockId := 0 }

/-- One `WhisperAPIEventHandler` instance: the three arguments baked into
the `functools.partial` at lines 111-116 (`wyoming_info`, `args`,
`model_lock`). -/
structure Handler where
  info : Info
  cliArgs : Args
  modelLock : ℕ
deriving DecidableEq, Repr

/-- The handler the server instantiates for connection `conn`: every
instantiation reuses the same prebuilt `partial` arguments. -/
def handlerFor (p : StartedProcess) (conn : ℕ) : Handler :=
  { info := p.info, cliArgs := p.args, modelLock := p.lockId }

/-- The credential a running session uses for a backend request.
Modelled from the spec: the handler module is not under `src/`; per §6 the
configuration is "read once at startup and passed into the core as an
immutable configuration value", so a session reads `args.openai_api_key`
and never re-reads the process environment (`currentEnv` is unused). -/
def sessionCredential (h : Handler) (currentEnv : String → Option String) :
    Option String :=
  h.cliArgs.openai_api_key

/-- The temperature a session puts in a backend request built from the
process-wide configuration.  Modelled from the spec: the handler module is
not under `src/`; per §6 the backend request carries the configured
temperature, taken verbatim from the immutable startup configuration. -/
def requestTemperature (h : Handler) : PyTemp :=
  h.cliArgs.temperature

/-! ## Per-connection session handler (sequential view)

Modelled from the spec: `handler.py` (the `WhisperAPIEventHandler`) is not
under `src/`.  Spec §4.2 defines the per-connection state machine: `Idle`
waits for session-start; `Receiving` appends each audio-chunk's bytes to
the buffer in arrival order; on session-stop the buffered bytes are
flushed as one backend request and exactly one outcome event is emitted
(transcript on success, error on failure), after which the buffer is
cleared and the session returns to `Idle`.  A handler processes its own
connection's events strictly sequentially, so this view is a pure fold;
the backend is an oracle function from the flushed bytes to a result. -/

/-- Result of one backend transcription call. -/
inductive BackendResult where
  | success (text : String)
  | failure (code : String) (message : String)
deriving DecidableEq, Repr

/-- Outbound front-protocol events emitted by a session. -/
inductive OutEvent where
  | transcript (text : String)
  | errorEvent (code : String) (message : String)
deriving DecidableEq, Repr

/-- The single outcome event for a completed flush (spec §4.2). -/
def outcomeEvent : BackendResult → OutEvent
  | .success t => .transcript t
  | .failure c m => .errorEvent c m

/-- Inbound front-protocol events a session receives. -/
inductive InEvent where
  | sessionStart (language : Option String)
  | chunk (bytes : List ℕ)
  | sessionStop
deriving DecidableEq, Repr

/-- Sequential session phase: waiting for a session-start, or receiving
chunks. -/
inductive HPhase where
  | hIdle
  | hReceiving
deriving DecidableEq, Repr

/-- Sequential handler state: phase, buffered chunks in arrival order, and
the language override of the current session. -/
structure HandlerState where
  phase : HPhase
  buffer : List (List ℕ)
  language : Option String
deriving DecidableEq, Repr

/-- Handler state when a connection is accepted. -/
def initHandler : HandlerState :=
  { phase := .hIdle, buffer := [], language := none }

/-- Process one inbound event (spec §4.2): returns the next state, the
outbound events, and — when this event triggered the flush — the byte
payload delivered to the backend.  A chunk in `hIdle` is ignored per the
spec's stray-chunk policy; a stop in `hIdle` is likewise ignored. -/
def handleEvent (backend : List ℕ → BackendResult) (h : HandlerState) :
    InEvent → HandlerState × List OutEvent × Option (List ℕ)
  | .sessionStart lang =>
      ({ phase := .hReceiving, buffer := h.buffer, language := lang }, [], none)
  | .chunk b =>
      match h.phase with
      | .hReceiving =>
          ({ h with buffer := h.buffer ++ [b] }, [], none)
      | .hIdle => (h, [], none)
  | .sessionStop =>
      match h.phase with
      | .hReceiving =>
          let payload := h.buffer.flatten
          ({ phase := .hIdle, buffer := [], language := h.language },
           [outcomeEvent (backend payload)], some payload)
      | .hIdle => (h, [], none)

/-- Fold a whole inbound event sequence through the handler, collecting
outbound events and the backend payloads in flush order. -/
def runEvents (backend : List ℕ → BackendResult) (h : HandlerState) :
    List InEvent → HandlerState × List OutEvent × List (List ℕ)
  | [] => (h, [], [])
  | e :: es =>
      let r := handleEvent backend h e
      let rest := runEvents backend r.1 es
      (rest.1, r.2.1 ++ rest.2.1, r.2.2.toList ++ rest.2.2)

/-! ## Concurrent system model

Modelled from the spec (§4.2-§5, §9) together with `main` (line 109): one
logical task per connection, all sharing the single `model_lock`
constructed once in `main`.  A session that reaches session-stop waits for
the gate, issues the backend call while holding it, and the gate is
released exactly when the call resolves — also when the session
disconnected mid-call (the call completes fire-and-forget and its result
is discarded, spec §4.2 `Closed`).  Steps of distinct sessions interleave
arbitrarily through the `Label` alphabet. -/

/-- Phase of one session task in the interleaved model.  `inFlight` means
the backend call is outstanding and the session holds the gate;
`closedInFlight` is a session that disconnected while its call is still
outstanding. -/
inductive Phase where
  | idle
  | receiving
  | waitingGate
  | inFlight
  | closedInFlight
  | closed
deriving DecidableEq, Repr

/-- One session task's state in the interleaved model. -/
structure Session where
  phase : Phase
  buffer : List (List ℕ)
  lastRequestBytes : Option (List ℕ)
deriving DecidableEq, Repr

/-- A freshly accepted connection's session. -/
def newSession : Session :=
  { phase := .idle, buffer := [], lastRequestBytes := none }

/-- Whole-process state: the single gate (`model_lock`) as the id of its
holder, the per-connection sessions indexed by connection id, the number
of lock objects ever constructed, and the shared capability descriptor. -/
structure SysState where
  lock : Option ℕ
  sessions : List Session
  locksCreated : ℕ
  info : Info
deriving DecidableEq, Repr

/-- Process state right after `main` reaches `server.run`: gate free, no
sessions yet, exactly the one lock from line 109 constructed. -/
def initState (i : Info) : SysState :=
  { lock := none, sessions := [], locksCreated := 1, info := i }

/-- Interleaving alphabet: dispatcher accepts a connection, or one session
makes a step (receive start/chunk/stop, acquire the gate, have its backend
call resolve, or disconnect). -/
inductive Label where
  | connect
  | start (sid : ℕ)
  | chunk (sid : ℕ) (bytes : List ℕ)
  | stop (sid : ℕ)
  | acquire (sid : ℕ)
  | resolve (sid : ℕ) (result : BackendResult)
  | disconnect (sid : ℕ)
deriving DecidableEq, Repr

/-- One step of the interleaved system.  `none` means the label is not
enabled in this state.  `acquire` fires only when the gate is free;
`resolve` fires only for the session actually holding the gate and always
hands the gate back (also for a disconnected session, whose result is
discarded).  No step constructs a lock. -/
def step (s : SysState) : Label → Option (SysState × List (ℕ × OutEvent))
  | .connect =>
      some ({ s with sessions := s.sessions ++ [newSession] }, [])
  | .start sid =>
      match s.sessions[sid]? with
      | some ss =>
          if ss.phase = .idle then
            some ({ s with sessions :=
                      s.sessions.set sid { ss with phase := .receiving, buffer := [] } }, [])
          else none
      | none => none
  | .chunk sid b =>
      match s.sessions[sid]? with
      | some ss =>
          if ss.phase = .receiving then
            some ({ s with sessions :=
                      s.sessions.set sid { ss with buffer := ss.buffer ++ [b] } }, [])
          else if ss.phase = .idle then
            some (s, [])
          else none
      | none => none
  | .stop sid =>
      match s.sessions[sid]? with
      | some ss =>
          if ss.phase = .receiving then
            some ({ s with sessions :=
                      s.sessions.set sid { ss with phase := .waitingGate } }, [])
          else none
      | none => none
  | .acquire sid =>
      match s.sessions[sid]? with
      | some ss =>
          if ss.phase = .waitingGate then
            if s.lock = none then
              some ({ s with
                        lock := some sid
                        sessions := s.sessions.set sid
                          { ss with phase := .inFlight
                                    lastRequestBytes := some ss.buffer.flatten } }, [])
            else none
          else none
      | none => none
  | .resolve sid r =>
      match s.sessions[sid]? with
      | some ss =>
          if s.lock = some sid then
            if ss.phase = .inFlight then
              some ({ s with
                        lock := none
                        sessions := s.sessions.set sid
                          { ss with phase := .idle, buffer := [] } },
                    [(sid, outcomeEvent r)])
            else if ss.phase = .closedInFlight then
              some ({ s with
                        lock := none
                        sessions := s.sessions.set sid
                          { ss with phase := .closed, buffer := [] } }, [])
            else none
          else none
      | none => none
  | .disconnect sid =>
      match s.sessions[sid]? with
      | some ss =>
          match ss.phase with
          | .inFlight =>
              some ({ s with sessions :=
                        s.sessions.set sid { ss with phase := .closedInFlight } }, [])
          | .closedInFlight => none
          | .closed => none
          | _ =>
              some ({ s with sessions :=
                        s.sessions.set sid { ss with phase := .closed } }, [])
      | none => none

/-- The state after attempting one labelled step (a disabled label leaves
the state unchanged). -/
def stepState (s : SysState) (l : Label) : SysState :=
  match step s l with
  | some r => r.1
  | none => s

/-- Run a whole interleaving. -/
def exec (s : SysState) : List Label → SysState
  | [] => s
  | l :: ls => exec (stepState s l) ls

/-- Does this phase have an outstanding backend call? -/
def inFlightPhase : Phase → Bool
  | .inFlight => true
  | .closedInFlight => true
  | _ => false

/-- Number of simultaneously outstanding backend calls. -/
def inflightCount (s : SysState) : ℕ :=
  s.sessions.countP (fun ss => inFlightPhase ss.phase)

/-- The gate invariant: a session has an outstanding backend call exactly
when it is the current holder of `model_lock`. -/
def GateInv (s : SysState) : Prop :=
  (∀ i ss, s.sessions[i]? = some ss → inFlightPhase ss.phase = true → s.lock = some i) ∧
  (∀ i, s.lock = some i → ∃ ss, s.sessions[i]? = some ss ∧ inFlightPhase ss.phase = true)

/-! ### Concrete sample values for evaluations -/

/-- A sample command line: the local backend variant, no optional flags. -/
def sampleSupplied : SuppliedArgs :=
  { api := some "http://localhost:8080/inference"
    uri := some "tcp://0.0.0.0:10300"
    openai_api_key := none
    openai_model := none
    language := none
    prompt := none
    temperature := none
    debug := false
    log_format := none }

/-- The parse of `sampleSupplied` under an empty environment with defaults
`"whisper-1"` and `"fmt"`. -/
def sampleArgs : Args :=
  { api := "http://localhost:8080/inference"
    uri := "tcp://0.0.0.0:10300"
    openai_api_key := none
    openai_model := "whisper-1"
    language := none
    prompt := none
    temperature := .float 0
    debug := false
    log_format := "fmt" }

/-- An interleaving: session 0 flushes and acquires the gate, session 1
reaches the gate queue, then session 0 disconnects mid-call. -/
def c3DemoTrace : List Label :=
  [.connect, .start 0, .stop 0, .acquire 0,
   .connect, .start 1, .stop 1, .disconnect 0]

/-! ### Gate invariant -/

/-- Updating a present index answers `getElem?` queries pointwise. -/
theorem getElem?_set_split {α : Type} {l : List α} {sid : ℕ} {ss : α} (a : α)
    (h : l[sid]? = some ss) (i : ℕ) :
    (l.set sid a)[i]? = if sid = i then some a else l[i]? := by
  have hlt : sid < l.length := (List.getElem?_eq_some.mp h).1
  rw [List.getElem?_set]
  by_cases hi : sid = i
  · subst hi
    simp [hlt]
  · simp [hi]

theorem gateInv_init (i : Info) : GateInv (initState i) := by
  constructor
  · intro j ss hget _
    simp [initState] at hget
  · intro j hlk
    simp [initState] at hlk

/-- A session update that does not change whether the session is in
flight, with the lock untouched, preserves the invariant (covers the
`start`, `chunk`, `stop` and `disconnect` steps). -/
theorem gateInv_update_sameFlight {s : SysState} {sid : ℕ} {ss : Session} (a : Session)
    (hss : s.sessions[sid]? = some ss)
    (hsame : inFlightPhase a.phase = inFlightPhase ss.phase)
    (h : GateInv s) :
    GateInv { s with sessions := s.sessions.set sid a } := by
  constructor
  · intro i ssi hget hfl
    by_cases hi : sid = i
    · subst hi
      rw [getElem?_set_split a hss, if_pos rfl] at hget
      cases hget
      exact h.1 sid ss hss (hsame ▸ hfl)
    · rw [getElem?_set_split a hss, if_neg hi] at hget
      exact h.1 i ssi hget hfl
  · intro i hlk
    obtain ⟨ssi, hget, hfl⟩ := h.2 i hlk
    by_cases hi : sid = i
    · subst hi
      rw [hss] at hget
      cases hget
      exact ⟨a, by rw [getElem?_set_split a hss, if_pos rfl], hsame.trans hfl⟩
    · exact ⟨ssi, by rw [getElem?_set_split a hss, if_neg hi]; exact hget, hfl⟩

/-- Acquiring the free gate preserves the invariant. -/
theorem gateInv_acquire {s : SysState} {sid : ℕ} {ss : Session} (a : Session)
    (hss : s.sessions[sid]? = some ss)
    (hfree : s.lock = none)
    (hnew : inFlightPhase a.phase = true)
    (h : GateInv s) :
    GateInv { s with lock := some sid, sessions := s.sessions.set sid a } := by
  constructor
  · intro i ssi hget hfl
    by_cases hi : sid = i
    · exact congrArg some hi
    · rw [getElem?_set_split a hss, if_neg hi] at hget
      have hcontra := h.1 i ssi hget hfl
      rw [hfree] at hcontra
      cases hcontra
  · intro i hlk
    have hi : sid = i := by injection hlk
    subst hi
    exact ⟨a, by rw [getElem?_set_split a hss, if_pos rfl], hnew⟩

/-- Resolving the in-flight call of the gate holder — releasing the gate —
preserves the invariant. -/
theorem gateInv_resolve {s : SysState} {sid : ℕ} {ss : Session} (a : Session)
    (hss : s.sessions[sid]? = some ss)
    (hlk : s.lock = some sid)
    (hnew : inFlightPhase a.phase = false)
    (h : GateInv s) :
    GateInv { s with lock := none, sessions := s.sessions.set sid a } := by
  constructor
  · intro i ssi hget hfl
    by_cases hi : sid = i
    · subst hi
      rw [getElem?_set_split a hss, if_pos rfl] at hget
      cases hget
      rw [hnew] at hfl
      cases hfl
    · rw [getElem?_set_split a hss, if_neg hi] at hget
      have hcontra := h.1 i ssi hget hfl
      rw [hlk] at hcontra
      have : sid = i := by injection hcontra
      exact absurd this hi
  · intro i hlk2
    cases hlk2

/-- Every step of the interleaved system preserves the gate invariant. -/
theorem gateInv_stepState (s : SysState) (l : Label) (h : GateInv s) :
    GateInv (stepState s l) := by
  cases l with
  | connect =>
      constructor
      · intro i ss hget hfl
        simp only [stepState, step] at hget ⊢
        rcases Nat.lt_or_ge i s.sessions.length with hi | hi
        · rw [List.getElem?_append_left hi] at hget
          exact h.1 i ss hget hfl
        · rcases Nat.eq_or_lt_of_le hi with heq | hlt
          · rw [← heq, List.getElem?_concat_length] at hget
            cases hget
            simp [newSession, inFlightPhase] at hfl
          · rw [List.getElem?_eq_none (by simpa using hlt)] at hget
            cases hget
      · intro i hlk
        simp only [stepState, step] at hlk ⊢
        obtain ⟨ss, hget, hfl⟩ := h.2 i hlk
        exact ⟨ss, by
          rw [List.getElem?_append_left (List.getElem?_eq_some.mp hget).1]
          exact hget, hfl⟩
  | start sid =>
      rcases hss : s.sessions[sid]? with _ | ss
      · simpa [stepState, step, hss] using h
      · by_cases hph : ss.phase = .idle
        · have hst : stepState s (.start sid) =
              { s with sessions :=
                  s.sessions.set sid { ss with phase := .receiving, buffer := [] } } := by
            simp [stepState, step, hss, hph]
          rw [hst]
          exact gateInv_update_sameFlight _ hss (by simp [hph, inFlightPhase]) h
        · simpa [stepState, step, hss, hph] using h
  | chunk sid b =>
      rcases hss : s.sessions[sid]? with _ | ss
      · simpa [stepState, step, hss] using h
      · by_cases hph : ss.phase = .receiving
        · have hst : stepState s (.chunk sid b) =
              { s with sessions :=
                  s.sessions.set sid { ss with buffer := ss.buffer ++ [b] } } := by
            simp [stepState, step, hss, hph]
          rw [hst]
          exact gateInv_update_sameFlight _ hss rfl h
        · by_cases hph2 : ss.phase = .idle
          · simpa [stepState, step, hss, hph, hph2] using h
          · simpa [stepState, step, hss, hph, hph2] using h
  | stop sid =>
      rcases hss : s.sessions[sid]? with _ | ss
      · simpa [stepState, step, hss] using h
      · by_cases hph : ss.phase = .receiving
        · have hst : stepState s (.stop sid) =
              { s with sessions := s.sessions.set sid { ss with phase := .waitingGate } } := by
            simp [stepState, step, hss, hph]
          rw [hst]
          exact gateInv_update_sameFlight _ hss (by simp [hph, inFlightPhase]) h
        · simpa [stepState, step, hss, hph] using h
  | acquire sid =>
      rcases hss : s.sessions[sid]? with _ | ss
      · simpa [stepState, step, hss] using h
      · by_cases hph : ss.phase = .waitingGate
        · by_cases hfree : s.lock = none
          · have hst : stepState s (.acquire sid) =
                { s with lock := some sid
                         sessions := s.sessions.set sid
                           { ss with phase := .inFlight
                                     lastRequestBytes := some ss.buffer.flatten } } := by
              simp [stepState, step, hss, hph, hfree]
            rw [hst]
            exact gateInv_acquire _ hss hfree rfl h
          · simpa [stepState, step, hss, hph, hfree] using h
        · simpa [stepState, step, hss, hph] using h
  | resolve sid r =>
      rcases hss : s.sessions[sid]? with _ | ss
      · simpa [stepState, step, hss] using h
      · by_cases hlk : s.lock = some sid
        · by_cases hph : ss.phase = .inFlight
          · have hst : stepState s (.resolve sid r) =
                { s with lock := none
                         sessions := s.sessions.set sid
                           { ss with phase := .idle, buffer := [] } } := by
              simp [stepState, step, hss, hlk, hph]
            rw [hst]
            exact gateInv_resolve _ hss hlk rfl h
          · by_cases hph2 : ss.phase = .closedInFlight
            · have hst : stepState s (.resolve sid r) =
                  { s with lock := none
                           sessions := s.sessions.set sid
                             { ss with phase := .closed, buffer := [] } } := by
                simp [stepState, step, hss, hlk, hph, hph2]
              rw [hst]
              exact gateInv_resolve _ hss hlk rfl h
            · simpa [stepState, step, hss, hlk, hph, hph2] using h
        · simpa [stepState, step, hss, hlk] using h
  | disconnect sid =>
      rcases hss : s.sessions[sid]? with _ | ss
      · simpa [stepState, step, hss] using h
      · cases hph : ss.phase with
        | inFlight =>
            have hst : stepState s (.disconnect sid) =
                { s with sessions :=
                    s.sessions.set sid { ss with phase := .closedInFlight } } := by
              simp [stepState, step, hss, hph]
            rw [hst]
            exact gateInv_update_sameFlight _ hss (by simp [hph, inFlightPhase]) h
        | closedInFlight => simpa [stepState, step, hss, hph] using h
        | closed => simpa [stepState, step, hss, hph] using h
        | idle =>
            have hst : stepState s (.disconnect sid) =
                { s with sessions := s.sessions.set sid { ss with phase := .closed } } := by
              simp [stepState, step, hss, hph]
            rw [hst]
            exact gateInv_update_sameFlight _ hss (by simp [hph, inFlightPhase]) h
        | receiving =>
            have hst : stepState s (.disconnect sid) =
                { s with sessions := s.sessions.set sid { ss with phase := .closed } } := by
              simp [stepState, step, hss, hph]
            rw [hst]
            exact gateInv_update_sameFlight _ hss (by simp [hph, inFlightPhase]) h
        | waitingGate =>
            have hst : stepState s (.disconnect sid) =
                { s with sessions := s.sessions.set sid { ss with phase := .closed } } := by
              simp [stepState, step, hss, hph]
            rw [hst]
            exact gateInv_update_sameFlight _ hss (by simp [hph, inFlightPhase]) h

/-- The gate invariant holds in every reachable state. -/
theorem gateInv_exec (s : SysState) (ls : List Label) (h : GateInv s) :
    GateInv (exec s ls) := by
  induction ls generalizing s with
  | nil => exact h
  | cons l ls ih => exact ih _ (gateInv_stepState s l h)

/-- A list in which any two positions holding elements satisfying `p`
coincide has at most one element satisfying `p`. -/
theorem countP_le_one_of_unique {α : Type} (p : α → Bool) (l : List α)
    (h : ∀ (i j : ℕ) (a b : α),
      l[i]? = some a → l[j]? = some b → p a = true → p b = true → i = j) :
    l.countP p ≤ 1 := by
  induction l with
  | nil => simp
  | cons x t ih =>
      rw [List.countP_cons]
      by_cases hx : p x = true
      · have ht : t.countP p = 0 := by
          rw [List.countP_eq_zero]
          intro b hb hpb
          obtain ⟨j, hj⟩ := List.mem_iff_getElem?.mp hb
          have hcontra := h (j + 1) 0 b x (by simpa using hj) (by simp) hpb hx
          exact absurd hcontra (Nat.succ_ne_zero j)
        rw [ht]
        simp [hx]
      · have ht : t.countP p ≤ 1 := by
          apply ih
          intro i j a b hi hj pa pb
          have := h (i + 1) (j + 1) a b (by simpa using hi) (by simpa using hj) pa pb
          omega
        have hx0 : p x = false := by
          cases hpx : p x
          · rfl
          · exact absurd hpx hx
        rw [hx0]
        simpa using ht

/-! ### Static components of the process state -/

/-- No step of the interleaved system constructs a lock or touches the
capability descriptor. -/
theorem step_preserves_static (s : SysState) (l : Label) (s' : SysState)
    (evs : List (ℕ × OutEvent)) (h : step s l = some (s', evs)) :
    s'.locksCreated = s.locksCreated ∧ s'.info = s.info := by
  cases l <;> simp only [step] at h <;> (repeat' split at h) <;>
    cases h <;> exact ⟨rfl, rfl⟩

theorem stepState_locksCreated (s : SysState) (l : Label) :
    (stepState s l).locksCreated = s.locksCreated := by
  unfold stepState
  rcases hstep : step s l with _ | ⟨s', evs⟩
  · rfl
  · exact (step_preserves_static s l s' evs hstep).1

theorem stepState_info (s : SysState) (l : Label) :
    (stepState s l).info = s.info := by
  unfold stepState
  rcases hstep : step s l with _ | ⟨s', evs⟩
  · rfl
  · exact (step_preserves_static s l s' evs hstep).2

theorem exec_locksCreated (s : SysState) (ls : List Label) :
    (exec s ls).locksCreated = s.locksCreated := by
  induction ls generalizing s with
  | nil => rfl
  | cons l ls ih => rw [exec, ih, stepState_locksCreated]

theorem exec_info (s : SysState) (ls : List Label) :
    (exec s ls).info = s.info := by
  induction ls generalizing s with
  | nil => rfl
  | cons l ls ih => rw [exec, ih, stepState_info]

/-- A `resolve` step — whatever the backend result, success or failure —
changes no session other than the gate holder's. -/
theorem resolve_frame (s : SysState) (sid : ℕ) (r : BackendResult)
    (s' : SysState) (evs : List (ℕ × OutEvent))
    (h : step s (.resolve sid r) = some (s', evs)) :
    ∀ j, j ≠ sid → s'.sessions[j]? = s.sessions[j]? := by
  intro j hj
  simp only [step] at h
  split at h
  · rename_i ss hss
    split at h
    · split at h
      · cases h
        exact List.getElem?_set_ne (fun hcontra => hj hcontra.symm)
      · split at h
        · cases h
          exact List.getElem?_set_ne (fun hcontra => hj hcontra.symm)
        · cases h
    · cases h
  · cases h

/-! ### Buffered audio delivered at flush -/

/-- Folding the remaining chunks and the stop event from a receiving state:
the single flushed payload is the concatenation of what was already
buffered and the remaining chunks, in order. -/
theorem runEvents_chunks_stop (backend : List ℕ → BackendResult)
    (buf : List (List ℕ)) (lang : Option String) (cs : List (List ℕ)) :
    runEvents backend { phase := .hReceiving, buffer := buf, language := lang }
      (cs.map InEvent.chunk ++ [InEvent.sessionStop]) =
      ({ phase := .hIdle, buffer := [], language := lang },
       [outcomeEvent (backend (buf ++ cs).flatten)], [(buf ++ cs).flatten]) := by
  induction cs generalizing buf with
  | nil => simp [runEvents, handleEvent]
  | cons c cs ih =>
      have hstep := ih (buf ++ [c])
      simp only [List.map_cons, List.cons_append, runEvents, handleEvent, List.append_eq]
      rw [hstep]
      simp

/-- A waiting session can always acquire a free gate. -/
theorem acquire_enabled (s : SysState) (j : ℕ) (ssj : Session)
    (hj : s.sessions[j]? = some ssj) (hwg : ssj.phase = .waitingGate)
    (hfree : s.lock = none) :
    ∃ s'' evs', step s (.acquire j) = some (s'', evs') ∧ s''.lock = some j := by
  refine ⟨{ s with
              lock := some j
              sessions := s.sessions.set j
                { ssj with
                    phase := .inFlight
                    lastRequestBytes := some ssj.buffer.flatten } }, [], ?_, rfl⟩
  simp [step, hj, hwg, hfree]

/-! ## Claim theorems -/

/-- C1: at every instant during the process lifetime, at most one
transcription request is in flight against the backend across all
concurrently active sessions: in every state reachable by any interleaving
(any number of sessions, each issuing any number of stop events), the
number of simultaneously outstanding backend calls never exceeds 1. -/
theorem c1_at_most_one_inflight_call (i : Info) (ls : List Label) :
    inflightCount (exec (initState i) ls) ≤ 1 := by
  have hinv := gateInv_exec (initState i) ls (gateInv_init i)
  apply countP_le_one_of_unique
  intro a b ssa ssb ha hb pa pb
  have h1 := hinv.1 a ssa ha pa
  have h2 := hinv.1 b ssb hb pb
  rw [h1] at h2
  exact Option.some.inj h2

/-- C2: for every sequence of audio-chunk events between session-start and
session-stop, the bytes delivered to the backend at flush are exactly the
concatenation of the chunks in arrival order — no gaps, duplication or
reordering. -/
theorem c2_flush_is_exact_concatenation (backend : List ℕ → BackendResult)
    (lang : Option String) (cs : List (List ℕ)) :
    (runEvents backend initHandler
        (InEvent.sessionStart lang :: cs.map InEvent.chunk ++ [InEvent.sessionStop])).2.2 =
      [cs.flatten] := by
  have h := runEvents_chunks_stop backend [] lang cs
  simp only [runEvents, handleEvent, initHandler, List.append_eq]
  rw [h]
  simp

/-- C3: however the in-flight backend call of the current gate holder ends
— and in particular also when the holder has disconnected mid-call — the
`resolve` step is enabled for any result, it leaves the gate free, and in
the resulting state every waiting session can acquire the gate. -/
theorem c3_gate_released_on_every_exit (i : Info) (ls : List Label) (sid : ℕ)
    (h : (exec (initState i) ls).lock = some sid) (r : BackendResult) :
    ∃ s' evs,
      step (exec (initState i) ls) (.resolve sid r) = some (s', evs) ∧
      s'.lock = none ∧
      ∀ j ssj, s'.sessions[j]? = some ssj → ssj.phase = .waitingGate →
        ∃ s'' evs', step s' (.acquire j) = some (s'', evs') ∧ s''.lock = some j := by
  have hinv := gateInv_exec (initState i) ls (gateInv_init i)
  obtain ⟨ss, hss, hfl⟩ := hinv.2 sid h
  revert hfl
  cases hph : ss.phase <;> intro hfl <;> simp only [inFlightPhase] at hfl
  · cases hfl
  · cases hfl
  · cases hfl
  · -- inFlight
    refine ⟨{ exec (initState i) ls with
                lock := none
                sessions := (exec (initState i) ls).sessions.set sid
                  { ss with phase := .idle, buffer := [] } },
            [(sid, outcomeEvent r)], ?_, rfl, ?_⟩
    · simp [step, hss, h, hph]
    · intro j ssj hj hwg
      exact acquire_enabled _ j ssj hj hwg rfl
  · -- closedInFlight
    refine ⟨{ exec (initState i) ls with
                lock := none
                sessions := (exec (initState i) ls).sessions.set sid
                  { ss with phase := .closed, buffer := [] } },
            [], ?_, rfl, ?_⟩
    · simp [step, hss, h, hph]
    · intro j ssj hj hwg
      exact acquire_enabled _ j ssj hj hwg rfl
  · cases hfl

/-- Witness for C3: after `c3DemoTrace`, session 0 disconnected while its
call is in flight and session 1 is waiting; resolving the call frees the
gate and lets session 1 acquire it. -/
theorem c3_witness :
    ∃ s' evs,
      step (exec (initState (wyoming_info "1.0.0" ["en"])) c3DemoTrace)
        (.resolve 0 (.failure "401" "Unauthorized")) = some (s', evs) ∧
      s'.lock = none ∧
      ∀ j ssj, s'.sessions[j]? = some ssj → ssj.phase = .waitingGate →
        ∃ s'' evs', step s' (.acquire j) = some (s'', evs') ∧ s''.lock = some j :=
  c3_gate_released_on_every_exit (wyoming_info "1.0.0" ["en"]) c3DemoTrace 0 rfl
    (.failure "401" "Unauthorized")

/-- C4: exactly one mutual-exclusion lock is constructed, once, at startup
before `server.run` starts accepting connections; every per-connection
handler instance is built from the same lock (allocation id 0); and no
session or request activity ever constructs another lock. -/
theorem c4_single_shared_lock (dm dlf : String) (env : String → Option String)
    (supplied : SuppliedArgs) (version : String) (langs : List String)
    (p : StartedProcess)
    (h : mainStartup dm dlf env supplied version langs = .ok p) :
    mainActions.count MainAction.createLock = 1 ∧
    (∃ (k j : ℕ), k < j ∧ mainActions[k]? = some MainAction.createLock ∧
      mainActions[j]? = some MainAction.runServer) ∧
    p.lockId = 0 ∧
    (∀ c, (handlerFor p c).modelLock = p.lockId) ∧
    (∀ c₁ c₂, (handlerFor p c₁).modelLock = (handlerFor p c₂).modelLock) ∧
    (∀ ls, (exec (initState p.info) ls).locksCreated = 1) := by
  have hlock : p.lockId = 0 := by
    unfold mainStartup at h
    rcases hp : parse_args dm dlf env supplied with e | args
    · rw [hp] at h
      cases h
    · rw [hp] at h
      cases h
      rfl
  refine ⟨by decide, ⟨4, 5, by decide, by decide, by decide⟩, hlock, fun c => rfl,
    fun c₁ c₂ => rfl, fun ls => ?_⟩
  rw [exec_locksCreated]
  rfl

/-- Witness for C4 at a concrete command line. -/
theorem c4_witness :
    mainActions.count MainAction.createLock = 1 ∧
    (∃ (k j : ℕ), k < j ∧ mainActions[k]? = some MainAction.createLock ∧
      mainActions[j]? = some MainAction.runServer) ∧
    (StartedProcess.mk sampleArgs (wyoming_info "1.0.0" ["en"]) 0).lockId = 0 ∧
    (∀ c, (handlerFor ⟨sampleArgs, wyoming_info "1.0.0" ["en"], 0⟩ c).modelLock =
      (StartedProcess.mk sampleArgs (wyoming_info "1.0.0" ["en"]) 0).lockId) ∧
    (∀ c₁ c₂, (handlerFor ⟨sampleArgs, wyoming_info "1.0.0" ["en"], 0⟩ c₁).modelLock =
      (handlerFor ⟨sampleArgs, wyoming_info "1.0.0" ["en"], 0⟩ c₂).modelLock) ∧
    (∀ ls, (exec (initState (StartedProcess.mk sampleArgs
      (wyoming_info "1.0.0" ["en"]) 0).info) ls).locksCreated = 1) :=
  c4_single_shared_lock "whisper-1" "fmt" (fun _ => none) sampleSupplied
    "1.0.0" ["en"] ⟨sampleArgs, wyoming_info "1.0.0" ["en"], 0⟩ rfl

/-- C5: a completed flush emits exactly one outcome event on the session's
own connection — a transcript on backend success, a single error event on
backend failure — and a resolving backend call, failed or not, never
changes any other session's state (failures are absorbed at the session
boundary; `handleEvent` and `step` are total). -/
theorem c5_exactly_one_outcome_event (backend : List ℕ → BackendResult)
    (h : HandlerState) (hrec : h.phase = .hReceiving) :
    ((handleEvent backend h .sessionStop).2.1 =
        [outcomeEvent (backend h.buffer.flatten)] ∧
      (∀ t, backend h.buffer.flatten = .success t →
        (handleEvent backend h .sessionStop).2.1 = [.transcript t]) ∧
      (∀ c m, backend h.buffer.flatten = .failure c m →
        (handleEvent backend h .sessionStop).2.1 = [.errorEvent c m])) ∧
    (∀ (s : SysState) (sid : ℕ) (r : BackendResult) (s' : SysState)
        (evs : List (ℕ × OutEvent)),
      step s (.resolve sid r) = some (s', evs) →
      ∀ j, j ≠ sid → s'.sessions[j]? = s.sessions[j]?) := by
  refine ⟨⟨?_, ?_, ?_⟩, resolve_frame⟩
  · simp [handleEvent, hrec]
  · intro t ht
    simp [handleEvent, hrec, ht, outcomeEvent]
  · intro c m hcm
    simp [handleEvent, hrec, hcm, outcomeEvent]

/-- Witness for C5 with a mocked backend returning "hello world" and a
session holding two buffered chunks. -/
theorem c5_witness :
    ((handleEvent (fun _ => .success "hello world")
        (HandlerState.mk .hReceiving [[1], [2]] none) .sessionStop).2.1 =
        [outcomeEvent ((fun _ => BackendResult.success "hello world")
          (HandlerState.mk .hReceiving [[1], [2]] none).buffer.flatten)] ∧
      (∀ t, (fun _ => BackendResult.success "hello world")
          (HandlerState.mk .hReceiving [[1], [2]] none).buffer.flatten = .success t →
        (handleEvent (fun _ => .success "hello world")
          (HandlerState.mk .hReceiving [[1], [2]] none) .sessionStop).2.1 =
          [.transcript t]) ∧
      (∀ c m, (fun _ => BackendResult.success "hello world")
          (HandlerState.mk .hReceiving [[1], [2]] none).buffer.flatten = .failure c m →
        (handleEvent (fun _ => .success "hello world")
          (HandlerState.mk .hReceiving [[1], [2]] none) .sessionStop).2.1 =
          [.errorEvent c m])) ∧
    (∀ (s : SysState) (sid : ℕ) (r : BackendResult) (s' : SysState)
        (evs : List (ℕ × OutEvent)),
      step s (.resolve sid r) = some (s', evs) →
      ∀ j, j ≠ sid → s'.sessions[j]? = s.sessions[j]?) :=
  c5_exactly_one_outcome_event (fun _ => .success "hello world")
    (HandlerState.mk .hReceiving [[1], [2]] none) rfl

/-- C6 counterexample: with `--api=openai` and no credential from either
the flag or the environment, startup still succeeds and the process runs;
the missing credential is not detected at startup, refuting the claim that
the process does not start. -/
theorem c6_counterexample :
    ∃ p : StartedProcess,
      mainStartup "whisper-1" "fmt" (fun _ => none)
        (SuppliedArgs.mk (some "openai") (some "tcp://0.0.0.0:10300")
          none none none none none false none)
        "1.0.0" ["en"] = .ok p ∧
      p.args.api = "openai" ∧
      p.args.openai_api_key = none :=
  ⟨_, rfl, rfl, rfl⟩

/-- C6 (amended): no credential validation happens at startup: whenever
the two required options `--api` and `--uri` are present, `main` reaches
`server.run` regardless of the selected backend or of any credential, so a
missing OpenAI key can only surface per-session at request time. -/
theorem c6_no_startup_credential_check (dm dlf : String)
    (env : String → Option String) (supplied : SuppliedArgs)
    (version : String) (langs : List String)
    (hapi : supplied.api.isSome = true) (huri : supplied.uri.isSome = true) :
    (mainStartup dm dlf env supplied version langs).isOk = true := by
  rcases ha : supplied.api with _ | a
  · rw [ha] at hapi
    cases hapi
  · rcases hu : supplied.uri with _ | u
    · rw [hu] at huri
      cases huri
    · simp [mainStartup, parse_args, ha, hu, Except.isOk, Except.toBool]

/-- Witness for the amended C6: the cloud backend selected with no
credential anywhere, startup succeeds. -/
theorem c6_witness :
    (SuppliedArgs.mk (some "openai") (some "tcp://0.0.0.0:10300")
        none none none none none false none).api.isSome = true ∧
    (SuppliedArgs.mk (some "openai") (some "tcp://0.0.0.0:10300")
        none none none none none false none).uri.isSome = true ∧
    (mainStartup "whisper-1" "fmt" (fun _ => none)
        (SuppliedArgs.mk (some "openai") (some "tcp://0.0.0.0:10300")
          none none none none none false none) "1.0.0" ["en"]).isOk = true :=
  ⟨rfl, rfl,
    c6_no_startup_credential_check "whisper-1" "fmt" (fun _ => none)
      (SuppliedArgs.mk (some "openai") (some "tcp://0.0.0.0:10300")
        none none none none none false none) "1.0.0" ["en"] rfl rfl⟩

/-- C8: the capability descriptor is built exactly once during startup and
contains exactly one ASR program named "whisper-cpp" with its attribution,
installed flag and version, holding exactly one model whose supported
languages are `WHISPER_LANGUAGES`; every session handler is handed the
same descriptor, and no step of the running system ever changes it. -/
theorem c8_capability_descriptor (version : String) (langs : List String) :
    mainActions.count MainAction.buildInfo = 1 ∧
    (wyoming_info version langs).asr.length = 1 ∧
    (wyoming_info version langs).asr[0]? = some
      { name := "whisper-cpp"
        description := "Faster Whisper transcription via its API"
        attribution := { name := "Michael Hansen"
                         url := "https://github.com/synesthesiam" }
        installed := true
        version := version
        models := [
          { name := "whisper.cpp"
            description := "whisper.cpp"
            attribution := { name := "rhasspy wyoming faster whisper"
                             url := "https://github.com/rhasspy/wyoming-faster-whisper" }
            installed := true
            languages := langs
            version := "1.0" } ] } ∧
    (∀ (p : StartedProcess) (c : ℕ), (handlerFor p c).info = p.info) ∧
    (∀ (dm dlf : String) (env : String → Option String) (supplied : SuppliedArgs)
        (p : StartedProcess),
      mainStartup dm dlf env supplied version langs = .ok p →
      p.info = wyoming_info version langs) ∧
    (∀ ls, (exec (initState (wyoming_info version langs)) ls).info =
      wyoming_info version langs) := by
  refine ⟨by decide, rfl, rfl, fun p c => rfl, ?_, fun ls => by rw [exec_info]; rfl⟩
  intro dm dlf env supplied p h
  unfold mainStartup at h
  rcases hp : parse_args dm dlf env supplied with e | args
  · rw [hp] at h
    cases h
  · rw [hp] at h
    cases h
    rfl

/-- Witness for C8 at the demo version and language list. -/
theorem c8_witness :
    mainActions.count MainAction.buildInfo = 1 ∧
    (wyoming_info "1.0.0" ["en"]).asr.length = 1 ∧
    (wyoming_info "1.0.0" ["en"]).asr[0]? = some
      { name := "whisper-cpp"
        description := "Faster Whisper transcription via its API"
        attribution := { name := "Michael Hansen"
                         url := "https://github.com/synesthesiam" }
        installed := true
        version := "1.0.0"
        models := [
          { name := "whisper.cpp"
            description := "whisper.cpp"
            attribution := { name := "rhasspy wyoming faster whisper"
                             url := "https://github.com/rhasspy/wyoming-faster-whisper" }
            installed := true
            languages := ["en"]
            version := "1.0" } ] } ∧
    (∀ (p : StartedProcess) (c : ℕ), (handlerFor p c).info = p.info) ∧
    (∀ (dm dlf : String) (env : String → Option String) (supplied : SuppliedArgs)
        (p : StartedProcess),
      mainStartup dm dlf env supplied "1.0.0" ["en"] = .ok p →
      p.info = wyoming_info "1.0.0" ["en"]) ∧
    (∀ ls, (exec (initState (wyoming_info "1.0.0" ["en"])) ls).info =
      wyoming_info "1.0.0" ["en"]) :=
  c8_capability_descriptor "1.0.0" ["en"]

/-- C7 counterexample: `--temperature 1.5` is accepted (not rejected), and
the value carried into the configuration — and forwarded verbatim into the
backend request — is the raw string "1.5", which is not a float at all; in
particular it is not clamped to 1.0, so no clamp-or-reject policy is
applied. -/
theorem c7_counterexample :
    ∃ args : Args,
      parse_args "whisper-1" "fmt" (fun _ => none)
        (SuppliedArgs.mk (some "http://localhost:8080/inference")
          (some "tcp://0.0.0.0:10300") none none none none
          (some "1.5") false none) = .ok args ∧
      args.temperature = .str "1.5" ∧
      (∀ q : ℚ, args.temperature ≠ .float q) ∧
      requestTemperature
        (handlerFor ⟨args, wyoming_info "1.0.0" ["en"], 0⟩ 0) = .str "1.5" :=
  ⟨_, rfl, rfl, fun q hq => PyTemp.noConfusion hq, rfl⟩

/-- C7 (amended): no clamping and no rejection happens anywhere between
the command line and the backend request: any supplied `--temperature`
string — in or out of [0,1] — is stored verbatim in the configuration and
forwarded verbatim into the request built by every session handler. -/
theorem c7_temperature_passthrough (dm dlf : String)
    (env : String → Option String) (supplied : SuppliedArgs)
    (args : Args) (t : String)
    (h : parse_args dm dlf env supplied = .ok args)
    (ht : supplied.temperature = some t) :
    args.temperature = .str t ∧
    ∀ (i : Info) (lk c : ℕ),
      requestTemperature (handlerFor ⟨args, i, lk⟩ c) = .str t := by
  rcases ha : supplied.api with _ | a
  · simp only [parse_args, ha] at h
    exact Except.noConfusion h
  · rcases hu : supplied.uri with _ | u
    · simp only [parse_args, ha, hu] at h
      exact Except.noConfusion h
    · simp only [parse_args, ha, hu] at h
      cases h
      refine ⟨?_, ?_⟩
      · simp [ht]
      · intro i lk c
        simp [requestTemperature, handlerFor, ht]

/-- Witness for the amended C7 at the out-of-range value 1.5. -/
theorem c7_witness :
    parse_args "whisper-1" "fmt" (fun _ => none)
      (SuppliedArgs.mk (some "http://localhost:8080/inference")
        (some "tcp://0.0.0.0:10300") none none none none
        (some "1.5") false none) =
      .ok (Args.mk "http://localhost:8080/inference" "tcp://0.0.0.0:10300"
        none "whisper-1" none none (.str "1.5") false "fmt") ∧
    (SuppliedArgs.mk (some "http://localhost:8080/inference")
        (some "tcp://0.0.0.0:10300") none none none none
        (some "1.5") false none).temperature = some "1.5" ∧
    ((Args.mk "http://localhost:8080/inference" "tcp://0.0.0.0:10300"
        none "whisper-1" none none (.str "1.5") false "fmt").temperature =
        .str "1.5" ∧
      ∀ (i : Info) (lk c : ℕ),
        requestTemperature (handlerFor ⟨Args.mk "http://localhost:8080/inference"
          "tcp://0.0.0.0:10300" none "whisper-1" none none (.str "1.5") false "fmt",
          i, lk⟩ c) = .str "1.5") :=
  ⟨rfl, rfl,
    c7_temperature_passthrough "whisper-1" "fmt" (fun _ => none)
      (SuppliedArgs.mk (some "http://localhost:8080/inference")
        (some "tcp://0.0.0.0:10300") none none none none
        (some "1.5") false none)
      (Args.mk "http://localhost:8080/inference" "tcp://0.0.0.0:10300"
        none "whisper-1" none none (.str "1.5") false "fmt")
      "1.5" rfl rfl⟩

/-- C9: when `--temperature` is absent, the configured value is the Python
float `0.0`; when supplied, the configured value is the raw command-line
string with no conversion or validation, so the runtime type of
`args.temperature` depends on whether the option was given. -/
theorem c9_temperature_default_and_type (dm dlf : String)
    (env : String → Option String) (supplied : SuppliedArgs) (args : Args)
    (h : parse_args dm dlf env supplied = .ok args) :
    (supplied.temperature = none → args.temperature = .float 0) ∧
    (∀ s, supplied.temperature = some s → args.temperature = .str s) := by
  rcases ha : supplied.api with _ | a
  · simp only [parse_args, ha] at h
    exact Except.noConfusion h
  · rcases hu : supplied.uri with _ | u
    · simp only [parse_args, ha, hu] at h
      exact Except.noConfusion h
    · simp only [parse_args, ha, hu] at h
      cases h
      constructor
      · intro hnone
        simp [hnone]
      · intro s hs
        simp [hs]

/-- Witness for C9: the default case yields the float `0.0`. -/
theorem c9_witness :
    parse_args "whisper-1" "fmt" (fun _ => none) sampleSupplied = .ok sampleArgs ∧
    ((sampleSupplied.temperature = none → sampleArgs.temperature = .float 0) ∧
      (∀ s, sampleSupplied.temperature = some s → sampleArgs.temperature = .str s)) :=
  ⟨rfl, c9_temperature_default_and_type "whisper-1" "fmt" (fun _ => none)
    sampleSupplied sampleArgs rfl⟩

/-- C10: the cloud-backend credential is resolved once at parse time — the
flag value if `--openai-api-key` was given, otherwise the value of
`OPENAI_API_KEY` in the startup environment (or `none` if unset) — and the
credential a running session uses is a function of the parsed arguments
only, unaffected by any later state of the environment. -/
theorem c10_credential_resolved_once (dm dlf : String)
    (env : String → Option String) (supplied : SuppliedArgs) (args : Args)
    (h : parse_args dm dlf env supplied = .ok args) :
    (args.openai_api_key =
      match supplied.openai_api_key with
      | some k => some k
      | none => env "OPENAI_API_KEY") ∧
    (∀ (i : Info) (lk c : ℕ) (envLater₁ envLater₂ : String → Option String),
      sessionCredential (handlerFor ⟨args, i, lk⟩ c) envLater₁ =
        sessionCredential (handlerFor ⟨args, i, lk⟩ c) envLater₂ ∧
      sessionCredential (handlerFor ⟨args, i, lk⟩ c) envLater₁ =
        args.openai_api_key) := by
  rcases ha : supplied.api with _ | a
  · simp only [parse_args, ha] at h
    exact Except.noConfusion h
  · rcases hu : supplied.uri with _ | u
    · simp only [parse_args, ha, hu] at h
      exact Except.noConfusion h
    · simp only [parse_args, ha, hu] at h
      cases h
      exact ⟨rfl, fun i lk c e₁ e₂ => ⟨rfl, rfl⟩⟩

/-- Witness for C10: the environment carries a key at startup, the flag is
absent; the resolved credential is the startup environment's value and
later environments do not enter the session's credential. -/
theorem c10_witness :
    parse_args "whisper-1" "fmt"
      (fun k => if k = "OPENAI_API_KEY" then some "sk-test" else none)
      (SuppliedArgs.mk (some "openai") (some "tcp://0.0.0.0:10300")
        none none none none none false none) =
      .ok (Args.mk "openai" "tcp://0.0.0.0:10300" (some "sk-test")
        "whisper-1" none none (.float 0) false "fmt") ∧
    (((Args.mk "openai" "tcp://0.0.0.0:10300" (some "sk-test")
        "whisper-1" none none (.float 0) false "fmt").openai_api_key =
      match (SuppliedArgs.mk (some "openai") (some "tcp://0.0.0.0:10300")
        none none none none none false none).openai_api_key with
      | some k => some k
      | none => (fun k => if k = "OPENAI_API_KEY" then some "sk-test" else none)
          "OPENAI_API_KEY") ∧
    (∀ (i : Info) (lk c : ℕ) (envLater₁ envLater₂ : String → Option String),
      sessionCredential (handlerFor ⟨Args.mk "openai" "tcp://0.0.0.0:10300"
          (some "sk-test") "whisper-1" none none (.float 0) false "fmt",
          i, lk⟩ c) envLater₁ =
        sessionCredential (handlerFor ⟨Args.mk "openai" "tcp://0.0.0.0:10300"
          (some "sk-test") "whisper-1" none none (.float 0) false "fmt",
          i, lk⟩ c) envLater₂ ∧
      sessionCredential (handlerFor ⟨Args.mk "openai" "tcp://0.0.0.0:10300"
          (some "sk-test") "whisper-1" none none (.float 0) false "fmt",
          i, lk⟩ c) envLater₁ =
        (Args.mk "openai" "tcp://0.0.0.0:10300" (some "sk-test")
          "whisper-1" none none (.float 0) false "fmt").openai_api_key)) :=
  ⟨rfl, c10_credential_resolved_once "whisper-1" "fmt"
    (fun k => if k = "OPENAI_API_KEY" then some "sk-test" else none)
    (SuppliedArgs.mk (some "openai") (some "tcp://0.0.0.0:10300")
      none none none none none false none)
    (Args.mk "openai" "tcp://0.0.0.0:10300" (some "sk-test")
      "whisper-1" none none (.float 0) false "fmt") rfl⟩

end WyomingWhisper
